import Mathlib

/-!
Verification of the authorization-and-execution pipeline of the
`linuxaiubuntu` AI system assistant.

The development shallowly embeds the Python sources:
  * `src/ai-system-assistant/src/commands.py` (intent schema / sanitization),
  * `src/policy.py` (the security policy engine),
  * `src/executor.py` (the safe executor; system calls are abstracted as an
    oracle environment, side effects are recorded in an explicit trace),
  * `src/main.py` (the pipeline orchestrator, instrumented with a stage trace).

Python strings are modelled as Lean `String`, Python string helpers
(`strip`, `split`, `lower`, regex searches for the concrete patterns in the
source) are defined below character-by-character.
-/

/-! ## Python string primitives -/

/-- Python whitespace for `str.strip`, `str.split()` and the regex class
`\s` (ASCII range, which is all that the embedded code ever meets). -/
def isPySpace (c : Char) : Bool :=
  c = ' ' || c = '\t' || c = '\n' || c = '\r' || c = Char.ofNat 11 || c = Char.ofNat 12

/-- `str.strip()` on a character list: drop leading and trailing whitespace. -/
def pstripL (l : List Char) : List Char :=
  ((l.dropWhile isPySpace).reverse.dropWhile isPySpace).reverse

/-- Python `str.strip()`. -/
def pstrip (s : String) : String := ⟨pstripL s.toList⟩

/-- Python `str.lower()` (ASCII case mapping). -/
def lowerStr (s : String) : String := ⟨s.toList.map Char.toLower⟩

/-- Helper for `str.split()`: accumulate the current word (reversed) and cut
at whitespace runs, producing no empty words. -/
def wordsGo : List Char → List Char → List (List Char)
  | [], acc => if acc.isEmpty then [] else [acc.reverse]
  | c :: rest, acc =>
    if isPySpace c then
      if acc.isEmpty then wordsGo rest [] else acc.reverse :: wordsGo rest []
    else
      wordsGo rest (c :: acc)

/-- Python `str.split()` with no argument: words separated by whitespace
runs, with no empty entries. -/
def pwords (s : String) : List String := (wordsGo s.toList []).map List.asString

/-- `words[0]` guarded as the source guards it (`[0]` of an empty split never
happens on the paths the source takes; the default mirrors the explicit
`if target else ""` guard of `_validate_start_app`). -/
def headWordD (s : String) : String :=
  match pwords s with
  | [] => ""
  | w :: _ => w

/-- Substring search on character lists (semantics of `re.search` for a
pattern that is a plain literal). -/
def subL (needle : List Char) : List Char → Bool
  | [] => needle.isPrefixOf []
  | c :: rest => needle.isPrefixOf (c :: rest) || subL needle rest

/-- `needle` occurs as a contiguous substring of `s`. -/
def containsS (needle s : String) : Bool := subL needle.toList s.toList

/-- Case-insensitive literal substring search (`re.IGNORECASE` on a literal
pattern whose lowercase form is `needle`). -/
def containsCI (needle s : String) : Bool := containsS needle (lowerStr s)

theorem subL_append (b a c : List Char) : subL b (a ++ b ++ c) = true := by
  induction a with
  | nil =>
      cases b with
      | nil => cases c <;> simp [subL, List.isPrefixOf]
      | cons x xs =>
          simp only [List.nil_append, List.cons_append, subL, Bool.or_eq_true]
          left
          exact List.isPrefixOf_iff_prefix.mpr ⟨c, by simp⟩
  | cons x xs ih =>
      cases b with
      | nil => cases (xs ++ [] ++ c) <;> simp [subL, List.isPrefixOf]
      | cons y ys =>
          simp only [List.cons_append, subL, Bool.or_eq_true]
          right
          exact ih

/-- A string that is literally built around `needle` contains it. -/
theorem containsS_of_append (pre needle post : String) :
    containsS needle (pre ++ needle ++ post) = true := by
  have h := subL_append needle.data pre.data post.data
  simpa [containsS, String.toList, List.append_assoc] using h

/-! ## Intent schema (`commands.py`) -/

/-- `CommandType` — the closed action vocabulary. -/
inductive CommandType
  | start_app
  | kill_process
  | list_processes
  | restart_service
  | shell_query
deriving DecidableEq, Repr

/-- `CommandType.value` — the wire string of each action
(Python `request.action.value`). -/
def CommandType.value : CommandType → String
  | .start_app => "start_app"
  | .kill_process => "kill_process"
  | .list_processes => "list_processes"
  | .restart_service => "restart_service"
  | .shell_query => "shell_query"

/-- The character class stripped by `CommandRequest.validate_target`:
`re.sub(r'[;&|`$(){}[\]<>!\\"\']', '', v)`.  The backtick, the braces and
the quotes are written via code points to keep them out of the surface
syntax. -/
def BANNED_TARGET_CHARS : List Char :=
  [';', '&', '|', Char.ofNat 96, '$', '(', ')', Char.ofNat 123, Char.ofNat 125,
   '[', ']', '<', '>', '!', '\\', Char.ofNat 34, Char.ofNat 39]

/-- The `re.sub` deleting every banned character. -/
def sanitizeTarget (s : String) : String :=
  ⟨s.toList.filter (fun c => !(BANNED_TARGET_CHARS.contains c))⟩

/-- `CommandRequest.validate_target`: reject an empty/whitespace-only raw
value, strip the banned characters, reject if the sanitized value exceeds
256 characters, and return the stripped sanitized value. -/
def validate_target (v : String) : Except String String :=
  if v = "" || pstrip v = "" then
    .error "Target cannot be empty"
  else
    let sanitized := sanitizeTarget v
    if sanitized.length > 256 then
      .error "Target too long (max 256 characters)"
    else
      .ok (pstrip sanitized)

/-- `CommandRequest.validate_action` (`mode="before"`): a string is accepted
iff it lowercases to one of the five action values. -/
def validate_action (v : String) : Except String CommandType :=
  if lowerStr v = "start_app" then .ok .start_app
  else if lowerStr v = "kill_process" then .ok .kill_process
  else if lowerStr v = "list_processes" then .ok .list_processes
  else if lowerStr v = "restart_service" then .ok .restart_service
  else if lowerStr v = "shell_query" then .ok .shell_query
  else .error ("Invalid action \x27" ++ v ++ "\x27. Must be one of the five known actions")

/-- `CommandRequest` after validation.  `parameters` is the optional string
to scalar mapping; only string-valued keys (`signal`, `filter`) are ever
read, so it is modelled as an association list. -/
structure CommandRequest where
  action : CommandType
  target : String
  parameters : Option (List (String × String)) := none
  reason : Option String := none
deriving DecidableEq, Repr

/-- Python `str.endswith` via character lists (the library `String.endsWith`
does not reduce inside the kernel). -/
def endsWithS (s suffix : String) : Bool :=
  suffix.toList.reverse.isPrefixOf s.toList.reverse

/-- Python `s[:-n]`: drop the last `n` characters. -/
def dropRightS (s : String) (n : Nat) : String :=
  ⟨s.toList.take (s.toList.length - n)⟩

instance {α β : Type} [DecidableEq α] [DecidableEq β] : DecidableEq (Except α β) := fun x y =>
  match x, y with
  | .ok a, .ok b =>
    if h : a = b then isTrue (by rw [h]) else isFalse (fun he => h (Except.ok.inj he))
  | .error a, .error b =>
    if h : a = b then isTrue (by rw [h]) else isFalse (fun he => h (Except.error.inj he))
  | .ok _, .error _ => isFalse (fun he => Except.noConfusion he)
  | .error _, .ok _ => isFalse (fun he => Except.noConfusion he)

/-! ## Security policy (`policy.py`) -/

/-- `PolicyViolationError` — the exception raised on a denial, carrying the
message, the offending raw target and the stable rule identifier. -/
structure PolicyViolation where
  message : String
  command : String
  rule : String
deriving DecidableEq, Repr

/-- `PolicyResult` — the value returned on an allow (the source only ever
returns `allowed=True`, leaving `reason`/`matched_rule` at `None`). -/
structure PolicyResult where
  allowed : Bool
  reason : Option String := none
  matched_rule : Option String := none
deriving DecidableEq, Repr

/-- `SecurityPolicy.BLOCKED_COMMANDS`. -/
def BLOCKED_COMMANDS : List String :=
  ["rm", "rmdir", "shred", "unlink",
   "mkfs", "dd", "fdisk", "parted", "gdisk",
   "mount", "umount", "losetup",
   "useradd", "userdel", "usermod", "passwd", "chpasswd",
   "groupadd", "groupdel", "groupmod",
   "chmod", "chown", "chgrp", "setfacl",
   "iptables", "ip6tables", "nft", "ufw", "firewall-cmd",
   "sudo", "su", "pkexec", "doas",
   "reboot", "shutdown", "poweroff", "halt", "init", "telinit",
   "wget", "curl",
   "nc", "netcat", "ncat",
   "python", "python3", "perl", "ruby", "bash", "sh", "zsh",
   "eval", "exec",
   "crontab", "at", "batch",
   "insmod", "rmmod", "modprobe"]

/-- `SecurityPolicy.ALLOWED_SHELL_COMMANDS`. -/
def ALLOWED_SHELL_COMMANDS : List String :=
  ["ps", "pgrep", "pidof",
   "grep", "egrep", "fgrep",
   "top", "htop",
   "free", "df", "du",
   "uptime", "uname", "hostname",
   "cat", "head", "tail", "less", "more",
   "ls", "find", "locate",
   "wc", "sort", "uniq",
   "date", "cal",
   "who", "w", "last",
   "systemctl status",
   "journalctl"]

/-- `SecurityPolicy.PROTECTED_SERVICES` — note the capitalized
`NetworkManager` entry, kept verbatim from the source. -/
def PROTECTED_SERVICES : List String :=
  ["systemd", "init", "dbus", "udev",
   "NetworkManager", "networking",
   "sshd", "ssh",
   "gdm", "lightdm", "sddm"]

/-- Critical processes of `_validate_kill_process`. -/
def CRITICAL_PROCESSES : List String :=
  ["init", "systemd", "dbus", "udev", "kernel",
   "kthreadd", "kworker", "ksoftirqd"]

/-- Search for the regex `[;&|]`. -/
def searchChainFull (s : String) : Bool :=
  s.toList.any (fun c => c = ';' || c = '&' || c = '|')

/-- Search for the regex `[;&]` (the special-cased check inside
`_validate_shell_query`). -/
def searchSemiAmp (s : String) : Bool :=
  s.toList.any (fun c => c = ';' || c = '&')

/-- Search for the regex `>\s*\/`: some `>` followed by (possibly empty)
whitespace and then a `/`. -/
def searchRedirRootL : List Char → Bool
  | [] => false
  | c :: rest =>
    (c = '>' && (rest.dropWhile isPySpace).head? = some '/') || searchRedirRootL rest

/-- `re.search` for the pattern `>\s*\/`. -/
def searchRedirRoot (s : String) : Bool := searchRedirRootL s.toList

/-- `SecurityPolicy.BLOCKED_PATTERNS` minus its first entry `[;&|]`, each as
a search function paired with its message.  All patterns are compiled with
`re.IGNORECASE`; the literal ones are matched against the lowercased text
(the patterns that contain no letters are unaffected by case folding). -/
def BLOCKED_PATTERNS_TAIL : List ((String → Bool) × String) :=
  [(fun s => containsS "$(" s, "Command substitution is not allowed"),
   (fun s => containsS (String.mk [Char.ofNat 96]) s, "Backtick command substitution is not allowed"),
   (fun s => searchRedirRoot s, "Output redirection to root filesystem is not allowed"),
   (fun s => containsS ".." s, "Parent directory traversal is not allowed"),
   (fun s => containsCI "/etc/" s, "Direct access to /etc is not allowed"),
   (fun s => containsCI "/root" s, "Access to root home directory is not allowed"),
   (fun s => containsCI "/dev/" s, "Direct device access is not allowed"),
   (fun s => containsCI "/proc/" s, "Direct proc access is not allowed"),
   (fun s => containsCI "/sys/" s, "Direct sys access is not allowed")]

/-- First matching message among the non-chaining patterns, in source
order. -/
def findPatternTail (s : String) : Option String :=
  BLOCKED_PATTERNS_TAIL.findSome? (fun pm => if pm.1 s then some pm.2 else none)

/-- The full dangerous-pattern scan in source order, `[;&|]` first — the
loop shared by `_validate_start_app`, `_validate_kill_process` and
`_validate_restart_service`. -/
def findPattern (s : String) : Option String :=
  if searchChainFull s then some "Shell command chaining is not allowed"
  else findPatternTail s

/-- `SecurityPolicy._validate_start_app`.  `tgt` is `request.target`. -/
def validate_start_app (tgt : String) : Except PolicyViolation PolicyResult :=
  let target := pstrip (lowerStr tgt)
  let first_word := if target = "" then "" else headWordD target
  if BLOCKED_COMMANDS.contains first_word then
    .error ⟨"Starting \x27" ++ first_word ++ "\x27 is not allowed", tgt, "blocked_application"⟩
  else
    match findPattern target with
    | some msg => .error ⟨msg, tgt, "dangerous_pattern"⟩
    | none => .ok { allowed := true }

/-- `SecurityPolicy._validate_kill_process`. -/
def validate_kill_process (tgt : String) : Except PolicyViolation PolicyResult :=
  let target := pstrip (lowerStr tgt)
  if CRITICAL_PROCESSES.contains target then
    .error ⟨"Killing \x27" ++ target ++ "\x27 is not allowed - critical system process",
            tgt, "protected_process"⟩
  else
    match findPattern target with
    | some msg => .error ⟨msg, tgt, "dangerous_pattern"⟩
    | none => .ok { allowed := true }

/-- `SecurityPolicy._validate_list_processes`. -/
def validate_list_processes (_tgt : String) : Except PolicyViolation PolicyResult :=
  .ok { allowed := true }

/-- `SecurityPolicy._validate_restart_service`: lowercase and strip, drop a
trailing `.service`, test the protected set, then the pattern scan. -/
def validate_restart_service (tgt : String) : Except PolicyViolation PolicyResult :=
  let target0 := pstrip (lowerStr tgt)
  let target := if endsWithS target0 ".service" then dropRightS target0 8 else target0
  if PROTECTED_SERVICES.contains target then
    .error ⟨"Restarting \x27" ++ target ++ "\x27 is not allowed - protected service",
            tgt, "protected_service"⟩
  else
    match findPattern target with
    | some msg => .error ⟨msg, tgt, "dangerous_pattern"⟩
    | none => .ok { allowed := true }

/-- `re.split(r'\s*\|\s*', ·)` — leftmost-greedy: a split point consumes the
maximal whitespace run before a `|`, the `|`, and the maximal whitespace run
after it.  `skip` is true while the trailing `\s*` of the previous match is
still being consumed. -/
def splitGo : List Char → List Char → Bool → List (List Char)
  | [], acc, _ => [acc.reverse]
  | c :: rest, acc, skip =>
    if c = '|' then
      (acc.dropWhile isPySpace).reverse :: splitGo rest [] true
    else if skip && isPySpace c then
      splitGo rest acc true
    else
      splitGo rest (c :: acc) false

/-- Pipe segmentation of a shell-query target. -/
def pipeSplit (s : String) : List String := (splitGo s.toList [] false).map List.asString

/-- The base-command admission test of `_validate_shell_query`: the
(lowercased) base command must equal an allowed entry or the first
whitespace token of an allowed entry. -/
def baseAllowed (base : String) : Bool :=
  ALLOWED_SHELL_COMMANDS.any (fun a => base = a || base = headWordD a)

/-- One iteration of the `for part in parts` loop of
`_validate_shell_query`: `none` means the segment passes (or is skipped as
empty), `some v` is the violation raised. -/
def checkSegment (orig : String) (part : String) : Option PolicyViolation :=
  match pwords part with
  | [] => none
  | w :: _ =>
    let base_cmd := lowerStr w
    if !(baseAllowed base_cmd) then
      some ⟨"Shell command \x27" ++ base_cmd ++ "\x27 is not in the allowed list",
            orig, "disallowed_shell_command"⟩
    else if searchSemiAmp part then
      some ⟨"Command chaining with ; or & is not allowed", orig, "dangerous_pattern"⟩
    else
      match findPatternTail part with
      | some msg => some ⟨msg, orig, "dangerous_pattern"⟩
      | none => none

/-- The segment loop: first violation wins, otherwise allow. -/
def checkParts (orig : String) : List String → Except PolicyViolation PolicyResult
  | [] => .ok { allowed := true }
  | p :: rest =>
    match checkSegment orig p with
    | some v => .error v
    | none => checkParts orig rest

/-- `SecurityPolicy._validate_shell_query`. -/
def validate_shell_query (tgt : String) : Except PolicyViolation PolicyResult :=
  checkParts tgt (pipeSplit (pstrip tgt))

/-- `SecurityPolicy.validate_command` — dispatch on the action kind. -/
def validate_command (req : CommandRequest) : Except PolicyViolation PolicyResult :=
  match req.action with
  | .start_app => validate_start_app req.target
  | .kill_process => validate_kill_process req.target
  | .list_processes => validate_list_processes req.target
  | .restart_service => validate_restart_service req.target
  | .shell_query => validate_shell_query req.target

example : validate_shell_query "ps aux | grep python" = .ok { allowed := true } := by decide
example : validate_start_app "firefox" = .ok { allowed := true } := by decide
example : (validate_shell_query "cat /etc/passwd").isOk = false := by decide
example : (validate_shell_query "rm -rf /").isOk = false := by decide
example : (validate_restart_service "sshd").isOk = false := by decide
example : (validate_restart_service "sshd.service").isOk = false := by decide
example : validate_restart_service "nginx.service" = .ok { allowed := true } := by decide

/-! ## Executor (`executor.py`)

System interaction is abstracted by an oracle `ExecEnv` that fixes, for each
call site, what the operating system would answer: a completed process
(stdout, stderr, return code), a `subprocess.TimeoutExpired`, or any other
exception carrying its message.  Every spawned process / executed command is
recorded in an explicit effect trace, and Python exception propagation is
the `Except` monad: a `.error` escaping a branch is what `execute`'s
catch-all `except Exception` receives. -/

/-- Outcome of one `subprocess.run` call. -/
inductive CallResult
  | completed (stdout stderr : String) (returncode : Int)
  | timeout
  | exc (msg : String)
deriving DecidableEq, Repr

/-- A side effect visible to the operating system. -/
inductive Effect
  | spawnedProcess (argv : List String)
  | ranCommand (argv : List String)
  | ranShell (command : String)
deriving DecidableEq, Repr

/-- The oracle: results of `shutil.which`, of the `.desktop` existence test,
of `subprocess.Popen` (a pid, or an exception message), and of each
`subprocess.run` call site. -/
structure ExecEnv where
  which : String → Option String
  desktopFileExists : String → Bool
  popen : List String → Except String Nat
  pgrepRun : CallResult
  pkillRun : CallResult
  psRun : CallResult
  systemctlStatusRun : CallResult
  systemctlRestartRun : CallResult
  shellRun : CallResult

/-- `ExecutionContext`. -/
structure ExecutionContext where
  dry_run : Bool := false
  timeout : Int := 60
  capture_output : Bool := true
deriving DecidableEq, Repr

/-- `SafeExecutor`'s own state: its context and the configured
`max_output_lines`. -/
structure SafeExecutor where
  context : ExecutionContext
  max_output_lines : Nat
deriving DecidableEq, Repr

/-- `CommandResponse`. -/
structure CommandResponse where
  success : Bool
  action : CommandType
  target : String
  output : Option String := none
  error : Option String := none
  exit_code : Option Int := none
deriving DecidableEq, Repr

/-- `request.parameters[key]` under Python truthiness (`None` and the empty
dict both fall back to the default). -/
def paramLookup (params : Option (List (String × String))) (key : String) (dflt : String) :
    String :=
  match params with
  | none => dflt
  | some ps =>
    match ps.lookup key with
    | none => dflt
    | some v => v

/-- `s.strip().split('\n')` with empty entries removed — the pid-list
post-processing of `_execute_kill_process`. -/
def nonEmptyLines (s : String) : List String :=
  ((pstrip s).splitOn "\n").filter (fun l => l ≠ "")

/-- Output truncation: keep the first `maxLines` lines and append the
truncation marker. -/
def truncLines (maxLines : Nat) (lines : List String) : List String :=
  if lines.length > maxLines then
    lines.take maxLines ++
      ["... (truncated, showing first " ++ toString maxLines ++ " lines)"]
  else lines

/-- `'\n'.join(lines)`. -/
def joinLines (lines : List String) : String := String.intercalate "\n" lines

/-- The fallback-directory loop of `_execute_start_app`: each candidate path
is accepted if `shutil.which` resolves it, or (for `.desktop` files, and only
then) a `test -f` subprocess reports it exists.  The `test -f` run is an
observable effect and is only performed when `shutil.which` failed on a
`.desktop` path, mirroring Python's short-circuit evaluation. -/
def resolveFallback (env : ExecEnv) : List String → Option String × List Effect
  | [] => (none, [])
  | path :: rest =>
    if (env.which path).isSome then
      (some path, [])
    else if endsWithS path ".desktop" then
      let eff := Effect.ranCommand ["test", "-f", path]
      if env.desktopFileExists path then
        (some path, [eff])
      else
        let (r, effs) := resolveFallback env rest
        (r, eff :: effs)
    else
      resolveFallback env rest

/-- `_execute_start_app`. -/
def execute_start_app (env : ExecEnv) (req : CommandRequest) :
    Except String CommandResponse × List Effect :=
  let app_name := pstrip req.target
  let (app_path, effs) :=
    match env.which app_name with
    | some p => (some p, [])
    | none =>
      resolveFallback env
        ["/usr/bin/" ++ app_name,
         "/usr/local/bin/" ++ app_name,
         "/snap/bin/" ++ app_name,
         "/usr/share/applications/" ++ app_name ++ ".desktop"]
  match app_path with
  | none =>
    (.ok { success := false, action := req.action, target := req.target,
           error := some ("Application \x27" ++ app_name ++ "\x27 not found") }, effs)
  | some p =>
    let argv := if endsWithS p ".desktop" then ["gtk-launch", app_name] else [p]
    match env.popen argv with
    | .ok pid =>
      (.ok { success := true, action := req.action, target := req.target,
             output := some ("Started \x27" ++ app_name ++ "\x27 (PID: " ++ toString pid ++ ")"),
             exit_code := some 0 },
       effs ++ [Effect.spawnedProcess argv])
    | .error e =>
      -- the inner `except Exception` of `_execute_start_app` converts the
      -- launch failure itself into a failure response
      (.ok { success := false, action := req.action, target := req.target,
             error := some ("Failed to start \x27" ++ app_name ++ "\x27: " ++ e) },
       effs ++ [Effect.spawnedProcess argv])

/-- `_execute_kill_process`: `pgrep` first (count), then `pkill`; only
`TimeoutExpired` is caught locally, any other exception propagates. -/
def execute_kill_process (env : ExecEnv) (req : CommandRequest) :
    Except String CommandResponse × List Effect :=
  let process_name := pstrip req.target
  let signal := paramLookup req.parameters "signal" "TERM"
  let pgrepEff := Effect.ranCommand ["pgrep", "-f", process_name]
  match env.pgrepRun with
  | .timeout =>
    (.ok { success := false, action := req.action, target := req.target,
           error := some "Operation timed out" }, [pgrepEff])
  | .exc m => (.error m, [pgrepEff])
  | .completed stdout _ code =>
    if code ≠ 0 then
      (.ok { success := false, action := req.action, target := req.target,
             error := some ("No process found matching \x27" ++ process_name ++ "\x27") },
       [pgrepEff])
    else
      let pids := nonEmptyLines stdout
      let pkillEff := Effect.ranCommand ["pkill", "-" ++ signal, "-f", process_name]
      match env.pkillRun with
      | .timeout =>
        (.ok { success := false, action := req.action, target := req.target,
               error := some "Operation timed out" }, [pgrepEff, pkillEff])
      | .exc m => (.error m, [pgrepEff, pkillEff])
      | .completed _ kstderr kcode =>
        if kcode = 0 then
          (.ok { success := true, action := req.action, target := req.target,
                 output := some ("Killed " ++ toString pids.length ++
                   " process(es) matching \x27" ++ process_name ++ "\x27"),
                 exit_code := some 0 },
           [pgrepEff, pkillEff])
        else
          (.ok { success := false, action := req.action, target := req.target,
                 error := some ("Failed to kill process: " ++ kstderr),
                 exit_code := some kcode },
           [pgrepEff, pkillEff])

/-- `_execute_list_processes`: `ps aux`, optionally sorted, truncated; the
response is marked successful unconditionally with the tool's exit code. -/
def execute_list_processes (env : ExecEnv) (ex : SafeExecutor) (req : CommandRequest) :
    Except String CommandResponse × List Effect :=
  let filter_arg := paramLookup req.parameters "filter" ""
  let cmd :=
    if filter_arg = "cpu" then ["ps", "aux", "--sort=-%cpu"]
    else if filter_arg = "memory" then ["ps", "aux", "--sort=-%mem"]
    else ["ps", "aux"]
  let eff := Effect.ranCommand cmd
  match env.psRun with
  | .timeout =>
    (.ok { success := false, action := req.action, target := req.target,
           error := some "Operation timed out" }, [eff])
  | .exc m => (.error m, [eff])
  | .completed stdout _ code =>
    let lines := (pstrip stdout).splitOn "\n"
    let output := joinLines (truncLines ex.max_output_lines lines)
    (.ok { success := true, action := req.action, target := req.target,
           output := some output, exit_code := some code }, [eff])

/-- `_execute_restart_service`: normalize the unit name, probe with
`systemctl status` (exit code 4 = unit not found), then restart and classify
the failure. -/
def execute_restart_service (env : ExecEnv) (req : CommandRequest) :
    Except String CommandResponse × List Effect :=
  let service_name0 := pstrip req.target
  let service_name :=
    if endsWithS service_name0 ".service" then service_name0
    else service_name0 ++ ".service"
  let statusEff := Effect.ranCommand ["systemctl", "status", service_name]
  match env.systemctlStatusRun with
  | .timeout =>
    (.ok { success := false, action := req.action, target := req.target,
           error := some "Operation timed out" }, [statusEff])
  | .exc m => (.error m, [statusEff])
  | .completed _ _ scode =>
    if scode = 4 then
      (.ok { success := false, action := req.action, target := req.target,
             error := some ("Service \x27" ++ service_name ++ "\x27 not found") },
       [statusEff])
    else
      let restartEff := Effect.ranCommand ["systemctl", "restart", service_name]
      match env.systemctlRestartRun with
      | .timeout =>
        (.ok { success := false, action := req.action, target := req.target,
               error := some "Operation timed out" }, [statusEff, restartEff])
      | .exc m => (.error m, [statusEff, restartEff])
      | .completed _ rstderr rcode =>
        if rcode = 0 then
          (.ok { success := true, action := req.action, target := req.target,
                 output := some ("Successfully restarted \x27" ++ service_name ++ "\x27"),
                 exit_code := some 0 },
           [statusEff, restartEff])
        else if containsS "Access denied" rstderr ||
                containsS "authentication required" (lowerStr rstderr) then
          (.ok { success := false, action := req.action, target := req.target,
                 error := some "Permission denied. Service management requires root privileges.",
                 exit_code := some rcode },
           [statusEff, restartEff])
        else
          (.ok { success := false, action := req.action, target := req.target,
                 error := some (if pstrip rstderr = "" then "Failed to restart service"
                                else pstrip rstderr),
                 exit_code := some rcode },
           [statusEff, restartEff])

/-- `_execute_shell_query`: one shell invocation bounded by
`self.context.timeout`; a `TimeoutExpired` becomes the dedicated timed-out
failure response naming the configured timeout. -/
def execute_shell_query (env : ExecEnv) (ex : SafeExecutor) (req : CommandRequest) :
    Except String CommandResponse × List Effect :=
  let query := pstrip req.target
  let eff := Effect.ranShell query
  match env.shellRun with
  | .timeout =>
    (.ok { success := false, action := req.action, target := req.target,
           error := some ("Command timed out after " ++ toString ex.context.timeout ++
             " seconds") },
     [eff])
  | .exc m => (.error m, [eff])
  | .completed stdout stderr code =>
    let output0 := pstrip stdout
    let lines := output0.splitOn "\n"
    let output :=
      if lines.length > ex.max_output_lines then
        joinLines (truncLines ex.max_output_lines lines)
      else output0
    (.ok { success := code = 0, action := req.action, target := req.target,
           output := some (if output = "" then "(no output)" else output),
           error := if code ≠ 0 then some (pstrip stderr) else none,
           exit_code := some code },
     [eff])

/-- The action dispatch inside `execute`'s `try` block. -/
def dispatchAction (env : ExecEnv) (ex : SafeExecutor) (req : CommandRequest) :
    Except String CommandResponse × List Effect :=
  match req.action with
  | .start_app => execute_start_app env req
  | .kill_process => execute_kill_process env req
  | .list_processes => execute_list_processes env ex req
  | .restart_service => execute_restart_service env req
  | .shell_query => execute_shell_query env ex req

/-- `SafeExecutor.execute`: the dry-run short circuit, then the dispatch
under a catch-all that turns any escaped exception into a failure response
carrying the exception's message. -/
def execute (env : ExecEnv) (ex : SafeExecutor) (req : CommandRequest) :
    CommandResponse × List Effect :=
  if ex.context.dry_run then
    ({ success := true, action := req.action, target := req.target,
       output := some ("[DRY RUN] Would execute: " ++ req.action.value ++ " on " ++
         req.target) }, [])
  else
    match dispatchAction env ex req with
    | (.ok r, effs) => (r, effs)
    | (.error m, effs) =>
      ({ success := false, action := req.action, target := req.target,
         error := some m }, effs)

/-! ## Pipeline orchestrator (`main.py`, schema stage from `ai.py`)

`AIAssistant.process` receives the LLM result, rejects upstream failures,
then runs policy validation and — only on an allow — execution.  The schema
stage lives in `OllamaLLM._parse_response`: `AIResponse.model_validate`
(which validates the embedded `CommandRequest`, i.e. `validate_action` and
`validate_target`) is wrapped in a catch-all that converts a validation
error into an unsuccessful `LLMResult`.  The JSON decoding of the raw model
text is upstream of the schema stage and is not modelled.  The pipeline is
instrumented with a trace of the downstream stages it actually invoked. -/

/-- The wire shape of a candidate command, before schema validation. -/
structure RawCommand where
  action : String
  target : String
  parameters : Option (List (String × String)) := none
  reason : Option String := none
deriving DecidableEq, Repr

/-- The wire envelope from the language model. -/
structure RawAIResponse where
  command : Option RawCommand := none
  error : Option String := none
  cannot_process : Bool := false
deriving DecidableEq, Repr

/-- A validated `AIResponse`. -/
structure AIResponseM where
  command : Option CommandRequest := none
  error : Option String := none
  cannot_process : Bool := false
deriving DecidableEq, Repr

/-- Field validation of `CommandRequest` (pydantic runs `validate_action`
and `validate_target`; the first failing validator aborts construction). -/
def model_validate_command (rc : RawCommand) : Except String CommandRequest :=
  match validate_action rc.action with
  | .error e => .error e
  | .ok a =>
    match validate_target rc.target with
    | .error e => .error e
    | .ok t => .ok { action := a, target := t, parameters := rc.parameters, reason := rc.reason }

/-- `AIResponse.model_validate` including `model_post_init`: an envelope
with neither a command, nor an error, nor `cannot_process` is rejected. -/
def model_validate (r : RawAIResponse) : Except String AIResponseM :=
  match r.command with
  | some rc =>
    match model_validate_command rc with
    | .error e => .error e
    | .ok c => .ok { command := some c, error := r.error, cannot_process := r.cannot_process }
  | none =>
    if r.error = none && !r.cannot_process then
      .error "Response must have either a command, an error, or cannot_process=true"
    else
      .ok { command := none, error := r.error, cannot_process := r.cannot_process }

/-- `LLMResult` (the fields `main.process` reads). -/
structure LLMResult where
  success : Bool
  response : Option AIResponseM := none
  error : Option String := none
deriving DecidableEq, Repr

/-- The schema half of `OllamaLLM._parse_response`: a validation error is
caught and surfaced as an unsuccessful `LLMResult`. -/
def parse_response (raw : RawAIResponse) : LLMResult :=
  match model_validate raw with
  | .ok resp => { success := true, response := some resp }
  | .error e => { success := false, error := some ("Error parsing LLM response: " ++ e) }

/-- `AssistantResult`. -/
structure AssistantResult where
  success : Bool
  message : String
  command : Option CommandRequest := none
  response : Option CommandResponse := none
  error : Option String := none
deriving DecidableEq, Repr

/-- Downstream pipeline stages, for the instrumentation trace. -/
inductive PStage
  | policy
  | exec
deriving DecidableEq, Repr

/-- Python truthiness of `ai_response.error` (`None` and `""` are falsy). -/
def errTruthy (o : Option String) : Bool :=
  match o with
  | none => false
  | some s => s ≠ ""

/-- Python `a or b` for the default of the cannot-process message. -/
def pyOr (o : Option String) (dflt : String) : String :=
  match o with
  | none => dflt
  | some s => if s = "" then dflt else s

/-- `AIAssistant.process`, instrumented: the returned list records which of
the policy / executor stages actually ran.  A `.error` result stands for an
`AttributeError` escaping `process` (a successful `LLMResult` without a
response object — `ai.py` never builds one).  The policy engine and the
executor are passed as functions so the orchestration is stated once for
any policy and executor. -/
def processT (policyF : CommandRequest → Except PolicyViolation PolicyResult)
    (execF : CommandRequest → CommandResponse)
    (user_input : String) (lr : LLMResult) :
    Except String AssistantResult × List PStage :=
  if user_input = "" || pstrip user_input = "" then
    (.ok { success := false, message := "Empty input provided",
           error := some "Please provide a command or request" }, [])
  else if !lr.success then
    (.ok { success := false, message := "Failed to process request with AI",
           error := lr.error }, [])
  else
    match lr.response with
    | none => (.error "AttributeError", [])
    | some ai =>
      if ai.cannot_process then
        (.ok { success := false, message := "Cannot process this request",
               error := some (pyOr ai.error "Request outside supported capabilities") }, [])
      else if errTruthy ai.error then
        (.ok { success := false, message := "AI could not fulfill request",
               error := ai.error }, [])
      else
        match ai.command with
        | none =>
          (.ok { success := false, message := "No command generated",
                 error := some "AI did not generate a valid command" }, [])
        | some command =>
          match policyF command with
          | .ok policy_result =>
            if !policy_result.allowed then
              (.ok { success := false, message := "Command blocked by policy",
                     command := some command, error := policy_result.reason },
               [PStage.policy])
            else
              let response := execF command
              if response.success then
                (.ok { success := true,
                       message := "Successfully executed: " ++ command.action.value,
                       command := some command, response := some response },
                 [PStage.policy, PStage.exec])
              else
                (.ok { success := false, message := "Command execution failed",
                       command := some command, response := some response,
                       error := response.error },
                 [PStage.policy, PStage.exec])
          | .error e =>
            (.ok { success := false, message := "Command blocked by security policy",
                   command := some command, error := some e.message },
             [PStage.policy])

/-- The composed pipeline: schema stage (`parse_response`) feeding
`process`. -/
def process_pipeline (policyF : CommandRequest → Except PolicyViolation PolicyResult)
    (execF : CommandRequest → CommandResponse)
    (user_input : String) (raw : RawAIResponse) :
    Except String AssistantResult × List PStage :=
  processT policyF execF user_input (parse_response raw)

/-! ## Helper lemmas about the string primitives -/

theorem pstripL_eq_rdropWhile (l : List Char) :
    pstripL l = List.rdropWhile isPySpace (l.dropWhile isPySpace) := rfl

theorem dropWhile_eq_self_of_prefix {α : Type} (p : α → Bool) {l₁ l₂ : List α}
    (hp : l₁ <+: l₂) (h : l₂.dropWhile p = l₂) : l₁.dropWhile p = l₁ := by
  cases l₁ with
  | nil => rfl
  | cons a t =>
    obtain ⟨r, hr⟩ := hp
    subst hr
    rw [List.dropWhile_eq_self_iff] at h ⊢
    intro _
    simpa using h (by simp)

theorem pstripL_idem (l : List Char) : pstripL (pstripL l) = pstripL l := by
  rw [pstripL_eq_rdropWhile, pstripL_eq_rdropWhile]
  have h1 : (List.rdropWhile isPySpace (l.dropWhile isPySpace)).dropWhile isPySpace =
      List.rdropWhile isPySpace (l.dropWhile isPySpace) :=
    dropWhile_eq_self_of_prefix _ (List.rdropWhile_prefix _ _)
      (List.dropWhile_idempotent _ _)
  rw [h1, List.rdropWhile_idempotent]

theorem mem_pstripL {c : Char} {l : List Char} (h : c ∈ pstripL l) : c ∈ l := by
  rw [pstripL_eq_rdropWhile] at h
  exact (List.dropWhile_sublist _).subset ((List.rdropWhile_prefix _ _).sublist.subset h)

theorem length_pstripL_le (l : List Char) : (pstripL l).length ≤ l.length := by
  rw [pstripL_eq_rdropWhile]
  exact le_trans (List.rdropWhile_prefix _ _).sublist.length_le
    (List.dropWhile_sublist _).length_le

/-- Spec-side abbreviation: the segment triggers none of the dangerous
patterns that `_validate_shell_query` applies inside a segment (the `[;&]`
special case, then the non-pipe patterns). -/
def segPatternsClean (part : String) : Bool :=
  !searchSemiAmp part && (findPatternTail part).isNone

theorem headWordD_of_pwords {p w : String} {ws : List String}
    (h : pwords p = w :: ws) : headWordD p = w := by
  simp [headWordD, h]

theorem checkSegment_none_of (orig part : String)
    (h1 : pwords part = [] ∨ baseAllowed (lowerStr (headWordD part)) = true)
    (h2 : segPatternsClean part = true) :
    checkSegment orig part = none := by
  rcases hw : pwords part with _ | ⟨w, ws⟩
  · simp [checkSegment, hw]
  · have hb : baseAllowed (lowerStr w) = true := by
      rcases h1 with h1 | h1
      · rw [hw] at h1; cases h1
      · rwa [headWordD_of_pwords hw] at h1
    have hc : searchSemiAmp part = false := by
      simp only [segPatternsClean, Bool.and_eq_true, Bool.not_eq_true'] at h2
      exact h2.1
    have hp : findPatternTail part = none := by
      simp only [segPatternsClean, Bool.and_eq_true, Option.isNone_iff_eq_none] at h2
      exact h2.2
    simp [checkSegment, hw, hb, hc, hp]

theorem checkSegment_none_base {orig part : String}
    (h : checkSegment orig part = none) :
    pwords part = [] ∨ baseAllowed (lowerStr (headWordD part)) = true := by
  rcases hw : pwords part with _ | ⟨w, ws⟩
  · exact Or.inl rfl
  · right
    rw [headWordD_of_pwords hw]
    by_contra hb
    rw [Bool.not_eq_true] at hb
    simp [checkSegment, hw, hb] at h

theorem checkParts_ok_of (orig : String) (l : List String)
    (h : ∀ p ∈ l, checkSegment orig p = none) :
    checkParts orig l = .ok { allowed := true } := by
  induction l with
  | nil => rfl
  | cons p rest ih =>
    have hp := h p (List.mem_cons_self _ _)
    simp only [checkParts, hp]
    exact ih (fun q hq => h q (List.mem_cons_of_mem _ hq))

theorem checkParts_forall_of_ok {orig : String} {l : List String} {pr : PolicyResult}
    (h : checkParts orig l = .ok pr) :
    ∀ p ∈ l, pwords p = [] ∨ baseAllowed (lowerStr (headWordD p)) = true := by
  induction l with
  | nil => intro p hp; cases hp
  | cons q rest ih =>
    intro p hp
    rw [List.mem_cons] at hp
    rcases hs : checkSegment orig q with _ | v
    · rcases hp with hp | hp
      · subst hp; exact checkSegment_none_base hs
      · rw [checkParts, hs] at h
        exact ih h p hp
    · rw [checkParts, hs] at h
      cases h

theorem checkParts_error_of_bad (orig : String) (l : List String)
    (hclean : ∀ p ∈ l, segPatternsClean p = true)
    (hbad : ∃ p ∈ l, pwords p ≠ [] ∧ baseAllowed (lowerStr (headWordD p)) = false) :
    ∃ v, checkParts orig l = .error v ∧ v.rule = "disallowed_shell_command" := by
  induction l with
  | nil => obtain ⟨p, hp, -⟩ := hbad; cases hp
  | cons q rest ih =>
    rcases hw : pwords q with _ | ⟨w, ws⟩
    · have hq : checkSegment orig q = none := by simp [checkSegment, hw]
      obtain ⟨p, hp, hpw, hpb⟩ := hbad
      rw [List.mem_cons] at hp
      rcases hp with hp | hp
      · subst hp; exact absurd hw hpw
      · simp only [checkParts, hq]
        exact ih (fun r hr => hclean r (List.mem_cons_of_mem _ hr)) ⟨p, hp, hpw, hpb⟩
    · rcases hb : baseAllowed (lowerStr w) with _ | _
      · refine ⟨⟨"Shell command \x27" ++ lowerStr w ++ "\x27 is not in the allowed list",
          orig, "disallowed_shell_command"⟩, ?_, rfl⟩
        simp [checkParts, checkSegment, hw, hb]
      · have hq : checkSegment orig q = none :=
          checkSegment_none_of orig q
            (Or.inr (by rwa [headWordD_of_pwords hw]))
            (hclean q (List.mem_cons_self _ _))
        obtain ⟨p, hp, hpw, hpb⟩ := hbad
        rw [List.mem_cons] at hp
        rcases hp with hp | hp
        · subst hp
          rw [headWordD_of_pwords hw] at hpb
          rw [hpb] at hb
          cases hb
        · simp only [checkParts, hq]
          exact ih (fun r hr => hclean r (List.mem_cons_of_mem _ hr)) ⟨p, hp, hpw, hpb⟩

/-! ## Claim C1 — shell-query base-command admission -/

/-- C1 counterexample: `"systemctl restart nginx"` is a single segment whose
first whitespace token, `systemctl`, is not a (case-sensitive) member of
`ALLOWED_SHELL_COMMANDS` — the set only holds the two-word entry
`"systemctl status"` — yet the query is allowed, because the source also
accepts a base token equal to the first word of an allowed entry. -/
theorem shell_query_systemctl_restart_not_denied :
    ALLOWED_SHELL_COMMANDS.contains "systemctl" = false ∧
    pwords "systemctl restart nginx" = ["systemctl", "restart", "nginx"] ∧
    validate_shell_query "systemctl restart nginx" = .ok { allowed := true } := by decide

/-- C1 (amended): a segment's lowercased base token is admitted iff it
equals an allowed entry or the first word of an allowed entry
(`baseAllowed`); when every segment is free of dangerous patterns, a
nonempty segment with an inadmissible base token forces a denial with rule
`disallowed_shell_command`, and conversely an allowed query has only
segments that are empty or carry an admissible base token. -/
theorem shell_query_base_admission (t : String) :
    ((∀ part ∈ pipeSplit (pstrip t), segPatternsClean part = true) →
      (∃ part ∈ pipeSplit (pstrip t),
        pwords part ≠ [] ∧ baseAllowed (lowerStr (headWordD part)) = false) →
      ∃ v, validate_shell_query t = .error v ∧ v.rule = "disallowed_shell_command") ∧
    (∀ pr, validate_shell_query t = .ok pr →
      ∀ part ∈ pipeSplit (pstrip t),
        pwords part = [] ∨ baseAllowed (lowerStr (headWordD part)) = true) := by
  constructor
  · intro hclean hbad
    exact checkParts_error_of_bad t (pipeSplit (pstrip t)) hclean hbad
  · intro pr hok
    exact checkParts_forall_of_ok hok

theorem shell_query_base_admission_witness :
    (∃ v, validate_shell_query "rm -rf x" = .error v ∧
      v.rule = "disallowed_shell_command") ∧
    (∀ part ∈ pipeSplit (pstrip "ps aux | grep python"),
      pwords part = [] ∨ baseAllowed (lowerStr (headWordD part)) = true) :=
  ⟨(shell_query_base_admission "rm -rf x").1 (by decide) (by decide),
   (shell_query_base_admission "ps aux | grep python").2 { allowed := true } (by decide)⟩

/-! ## Claim C2 — protected services under `RestartService` -/

/-- C2: the protected-service check lowercases the target before testing
membership, but `PROTECTED_SERVICES` holds the capitalized literal
`"NetworkManager"`; that entry can therefore never match, and restarting
NetworkManager is allowed — with and without the `.service` suffix —
contradicting the claim for that member of the set. -/
theorem restart_service_NetworkManager_allowed :
    PROTECTED_SERVICES.contains "NetworkManager" = true ∧
    validate_restart_service "NetworkManager" = .ok { allowed := true } ∧
    validate_restart_service "NetworkManager.service" = .ok { allowed := true } := by decide

/-! ## Claim C3 — accepted targets and empty sanitization -/

/-- C3: `validate_target` tests emptiness on the raw value before
sanitizing, so the raw target `";"` — which sanitizes to the empty string —
is accepted and produces an empty target instead of an `EmptyTarget`
rejection. -/
theorem validate_target_accepts_empty_sanitization :
    sanitizeTarget ";" = "" ∧ validate_target ";" = .ok "" := by decide

/-! ## Claim C6 — pipelines of allowed commands -/

/-- C6 counterexample: every segment of `"cat /etc/hosts | grep host"`
starts with a command that is a member of `ALLOWED_SHELL_COMMANDS` (`cat`,
`grep`) and the segments are joined by the pipe character, yet the query is
denied, because the segment `cat /etc/hosts` matches the `/etc/` dangerous
pattern. -/
theorem shell_query_allowed_bases_still_denied :
    (∀ part ∈ pipeSplit (pstrip "cat /etc/hosts | grep host"),
      pwords part ≠ [] ∧ ALLOWED_SHELL_COMMANDS.contains (headWordD part) = true) ∧
    validate_shell_query "cat /etc/hosts | grep host" =
      .error ⟨"Direct access to /etc is not allowed", "cat /etc/hosts | grep host",
              "dangerous_pattern"⟩ := by decide

/-- Every member of the allowed set survives lowercasing and is admitted as
a base command. -/
theorem baseAllowed_of_member :
    ∀ w ∈ ALLOWED_SHELL_COMMANDS, baseAllowed (lowerStr w) = true := by decide

/-- C6 (amended): a `ShellQuery` whose pipe-separated segments each are
empty or start with a member of the allowed-shell-commands set, and none of
which matches a dangerous pattern, is allowed. -/
theorem shell_query_allowed_pipeline (t : String)
    (h : ∀ part ∈ pipeSplit (pstrip t),
      (pwords part = [] ∨ ALLOWED_SHELL_COMMANDS.contains (headWordD part) = true) ∧
      segPatternsClean part = true) :
    validate_shell_query t = .ok { allowed := true } := by
  apply checkParts_ok_of
  intro p hp
  obtain ⟨hbase, hclean⟩ := h p hp
  apply checkSegment_none_of _ _ _ hclean
  rcases hbase with hbase | hbase
  · exact Or.inl hbase
  · exact Or.inr (baseAllowed_of_member _ (List.mem_of_elem_eq_true hbase))

theorem shell_query_allowed_pipeline_witness :
    validate_shell_query "ps aux | grep python" = .ok { allowed := true } :=
  shell_query_allowed_pipeline "ps aux | grep python" (by decide)

/-! ## Claim C7 — idempotence of schema validation -/

/-- C7 counterexample: the raw target `";"` is accepted (yielding the empty
sanitized target), but validating the accepted value again fails, so
validation is not idempotent on all accepted candidates. -/
theorem validate_target_not_idempotent :
    validate_target ";" = .ok "" ∧
    validate_target "" = .error "Target cannot be empty" := by decide

theorem validate_target_ok_shape {v s : String} (h : validate_target v = .ok s) :
    s = pstrip (sanitizeTarget v) ∧ (sanitizeTarget v).length ≤ 256 := by
  unfold validate_target at h
  split at h
  · cases h
  · dsimp only [] at h
    split at h
    · cases h
    · rename_i hlen
      exact ⟨(Except.ok.inj h).symm, by omega⟩

/-- C7 (amended): validating an accepted target again succeeds and returns
it unchanged, provided the accepted target is non-empty (re-validation of
the empty accepted target of the counterexample is the one failing case). -/
theorem validate_target_revalidate (v s : String)
    (hv : validate_target v = .ok s) (hs : s ≠ "") :
    validate_target s = .ok s := by
  obtain ⟨hshape, hlen⟩ := validate_target_ok_shape hv
  subst hshape
  have hsani : sanitizeTarget (pstrip (sanitizeTarget v)) = pstrip (sanitizeTarget v) := by
    show (⟨List.filter (fun c => !(BANNED_TARGET_CHARS.contains c))
            (pstripL (sanitizeTarget v).toList)⟩ : String)
        = ⟨pstripL (sanitizeTarget v).toList⟩
    congr 1
    apply List.filter_eq_self.mpr
    intro a ha
    have hax : a ∈ List.filter (fun c => !(BANNED_TARGET_CHARS.contains c)) v.toList :=
      mem_pstripL ha
    have hpa := List.of_mem_filter hax
    exact hpa
  have hstrip : pstrip (pstrip (sanitizeTarget v)) = pstrip (sanitizeTarget v) :=
    congrArg String.mk (pstripL_idem _)
  have hlen2 : (pstrip (sanitizeTarget v)).length ≤ 256 :=
    le_trans (length_pstripL_le _) hlen
  unfold validate_target
  rw [if_neg, hsani, if_neg]
  · rw [hstrip]
  · omega
  · simp [hs, hstrip]

theorem validate_target_revalidate_witness :
    validate_target " firefox " = .ok "firefox" ∧
    validate_target "firefox" = .ok "firefox" :=
  ⟨by decide, validate_target_revalidate " firefox " "firefox" (by decide) (by decide)⟩

/-! ## Claim C4 — blocked binaries under `StartApp` -/

theorem containsS_not_allowed (fw : String) :
    containsS "not allowed" ("Starting \x27" ++ fw ++ "\x27 is not allowed") = true := by
  have he : ("Starting \x27" ++ fw ++ "\x27 is ") ++ "not allowed" ++ "" =
      "Starting \x27" ++ fw ++ "\x27 is not allowed" := by
    apply String.ext
    simp [String.data_append]
  have h := containsS_of_append ("Starting \x27" ++ fw ++ "\x27 is ") "not allowed" ""
  rwa [he] at h

/-- C4: a `StartApp` target whose lowercased first whitespace token lies in
`BLOCKED_COMMANDS` is denied with rule `blocked_application` and a reason
mentioning "not allowed". -/
theorem start_app_blocked_first_token (t : String)
    (h : BLOCKED_COMMANDS.contains (headWordD (pstrip (lowerStr t))) = true) :
    ∃ v, validate_start_app t = .error v ∧ v.rule = "blocked_application" ∧
      containsS "not allowed" v.message = true := by
  refine ⟨⟨"Starting \x27" ++ headWordD (pstrip (lowerStr t)) ++ "\x27 is not allowed",
    t, "blocked_application"⟩, ?_, rfl, containsS_not_allowed _⟩
  have hne : ¬(pstrip (lowerStr t) = "") := by
    intro he
    rw [he] at h
    exact absurd h (by decide)
  have hmem : headWordD (pstrip (lowerStr t)) ∈ BLOCKED_COMMANDS := by simpa using h
  simp [validate_start_app, hne, hmem]

theorem start_app_blocked_first_token_witness :
    BLOCKED_COMMANDS.contains (headWordD (pstrip (lowerStr "rm -rf /"))) = true ∧
    (∃ v, validate_start_app "rm -rf /" = .error v ∧ v.rule = "blocked_application" ∧
      containsS "not allowed" v.message = true) :=
  ⟨by decide, start_app_blocked_first_token "rm -rf /" (by decide)⟩

/-! ## Claim C5 — pipeline short-circuiting -/

/-- C5: with a nonempty user input, (1) a candidate failing schema
validation yields the parse-failure pipeline result with an empty
downstream-stage trace — the policy engine never runs; (2) a policy denial
raised as a `PolicyViolationError` yields the blocked result carrying the
violation's message with trace `[policy]` — the executor never runs; (3) a
policy verdict returned with `allowed = false` likewise stops the pipeline
after the policy stage, carrying that verdict's reason. -/
theorem pipeline_stage_short_circuit
    (policyF : CommandRequest → Except PolicyViolation PolicyResult)
    (execF : CommandRequest → CommandResponse)
    (input : String) (raw : RawAIResponse)
    (hin : pstrip input ≠ "") :
    (∀ e, model_validate raw = .error e →
      process_pipeline policyF execF input raw =
        (.ok { success := false, message := "Failed to process request with AI",
               error := some ("Error parsing LLM response: " ++ e) }, [])) ∧
    (∀ resp command v, model_validate raw = .ok resp →
      resp.cannot_process = false → errTruthy resp.error = false →
      resp.command = some command → policyF command = .error v →
      process_pipeline policyF execF input raw =
        (.ok { success := false, message := "Command blocked by security policy",
               command := some command, error := some v.message }, [PStage.policy])) ∧
    (∀ resp command pr, model_validate raw = .ok resp →
      resp.cannot_process = false → errTruthy resp.error = false →
      resp.command = some command → policyF command = .ok pr → pr.allowed = false →
      process_pipeline policyF execF input raw =
        (.ok { success := false, message := "Command blocked by policy",
               command := some command, error := pr.reason }, [PStage.policy])) := by
  have hinne : ¬(input = "") := by
    intro he
    apply hin
    rw [he]
    rfl
  refine ⟨?_, ?_, ?_⟩
  · intro e he
    simp [process_pipeline, processT, parse_response, he, hinne, hin]
  · intro resp command v hresp hcp herr hcmd hpol
    simp [process_pipeline, processT, parse_response, hresp, hinne, hin, hcp, herr,
      hcmd, hpol]
  · intro resp command pr hresp hcp herr hcmd hpol hall
    simp [process_pipeline, processT, parse_response, hresp, hinne, hin, hcp, herr,
      hcmd, hpol, hall]

/-- Concrete policy stub that denies everything, for the pipeline
witness. -/
def policyDenyW : CommandRequest → Except PolicyViolation PolicyResult :=
  fun _ => .error ⟨"blocked for test", "t", "test_rule"⟩

/-- Concrete executor stub for the pipeline witness. -/
def execOkW : CommandRequest → CommandResponse :=
  fun c => { success := true, action := c.action, target := c.target }

/-- A candidate whose target fails schema validation. -/
def rawBadW : RawAIResponse :=
  { command := some { action := "start_app", target := "" } }

/-- A well-formed candidate that the stub policy denies. -/
def rawGoodW : RawAIResponse :=
  { command := some { action := "start_app", target := "firefox" } }

theorem pipeline_stage_short_circuit_witness :
    (process_pipeline policyDenyW execOkW "open firefox" rawBadW =
      (.ok { success := false, message := "Failed to process request with AI",
             error := some ("Error parsing LLM response: " ++ "Target cannot be empty") },
       [])) ∧
    (process_pipeline policyDenyW execOkW "open firefox" rawGoodW =
      (.ok { success := false, message := "Command blocked by security policy",
             command := some { action := .start_app, target := "firefox" },
             error := some "blocked for test" }, [PStage.policy])) :=
  ⟨(pipeline_stage_short_circuit policyDenyW execOkW "open firefox" rawBadW
      (by decide)).1 "Target cannot be empty" (by decide),
   (pipeline_stage_short_circuit policyDenyW execOkW "open firefox" rawGoodW
      (by decide)).2.1
      { command := some { action := .start_app, target := "firefox" } }
      { action := .start_app, target := "firefox" }
      ⟨"blocked for test", "t", "test_rule"⟩
      (by decide) rfl rfl rfl rfl⟩

/-! ## Claim C8 — dry run has no side effects -/

/-- C8: with the dry-run flag set, `execute` returns a successful response
whose output names the action and the target, and the effect trace is empty
— no process is spawned, no signal is sent, and no oracle call is made. -/
theorem execute_dry_run (env : ExecEnv) (ex : SafeExecutor) (req : CommandRequest)
    (h : ex.context.dry_run = true) :
    execute env ex req =
      ({ success := true, action := req.action, target := req.target,
         output := some ("[DRY RUN] Would execute: " ++ req.action.value ++ " on " ++
           req.target) }, []) := by
  simp [execute, h]

/-- An arbitrary concrete oracle for the executor witnesses. -/
def envW : ExecEnv :=
  { which := fun _ => none,
    desktopFileExists := fun _ => false,
    popen := fun _ => .error "launch failed",
    pgrepRun := .timeout,
    pkillRun := .timeout,
    psRun := .timeout,
    systemctlStatusRun := .timeout,
    systemctlRestartRun := .timeout,
    shellRun := .timeout }

/-- A dry-run executor configuration. -/
def exDryW : SafeExecutor := { context := { dry_run := true }, max_output_lines := 100 }

theorem execute_dry_run_witness :
    exDryW.context.dry_run = true ∧
    execute envW exDryW { action := .restart_service, target := "nginx" } =
      ({ success := true, action := .restart_service, target := "nginx",
         output := some "[DRY RUN] Would execute: restart_service on nginx" }, []) := by
  refine ⟨rfl, ?_⟩
  have h := execute_dry_run envW exDryW { action := .restart_service, target := "nginx" } rfl
  simpa using h

/-! ## Claim C9 — shell-query timeout outcome -/

/-- C9: when the shell invocation of a `ShellQuery` raises
`TimeoutExpired`, `execute` returns a normal failure response — not a
propagated exception — whose error names the configured timeout in
seconds. -/
theorem shell_query_timeout_outcome (env : ExecEnv) (ex : SafeExecutor)
    (req : CommandRequest) (henv : env.shellRun = .timeout)
    (hdry : ex.context.dry_run = false) (hact : req.action = .shell_query) :
    execute env ex req =
      ({ success := false, action := req.action, target := req.target,
         error := some ("Command timed out after " ++ toString ex.context.timeout ++
           " seconds") },
       [Effect.ranShell (pstrip req.target)]) ∧
    containsS (toString ex.context.timeout)
      ("Command timed out after " ++ toString ex.context.timeout ++ " seconds") = true := by
  constructor
  · simp [execute, hdry, dispatchAction, hact, execute_shell_query, henv]
  · exact containsS_of_append "Command timed out after " (toString ex.context.timeout)
      " seconds"

/-- A live (non-dry-run) executor configuration with the default 60 second
timeout. -/
def exLiveW : SafeExecutor := { context := { dry_run := false }, max_output_lines := 100 }

theorem shell_query_timeout_outcome_witness :
    envW.shellRun = .timeout ∧
    execute envW exLiveW { action := .shell_query, target := "ps aux" } =
      ({ success := false, action := .shell_query, target := "ps aux",
         error := some "Command timed out after 60 seconds" },
       [Effect.ranShell "ps aux"]) := by
  refine ⟨rfl, ?_⟩
  have h := (shell_query_timeout_outcome envW exLiveW
    { action := .shell_query, target := "ps aux" } rfl rfl rfl).1
  simpa using h

/-! ## Claim C10 — totality of `execute` and request preservation -/

theorem start_app_fields (env : ExecEnv) (req : CommandRequest) :
    ∀ r, (execute_start_app env req).1 = .ok r →
      r.action = req.action ∧ r.target = req.target := by
  simp only [execute_start_app]
  repeat' split
  all_goals intro r hr
  all_goals cases hr
  all_goals exact ⟨rfl, rfl⟩

theorem kill_process_fields (env : ExecEnv) (req : CommandRequest) :
    ∀ r, (execute_kill_process env req).1 = .ok r →
      r.action = req.action ∧ r.target = req.target := by
  simp only [execute_kill_process]
  repeat' split
  all_goals intro r hr
  all_goals cases hr
  all_goals exact ⟨rfl, rfl⟩

theorem list_processes_fields (env : ExecEnv) (ex : SafeExecutor) (req : CommandRequest) :
    ∀ r, (execute_list_processes env ex req).1 = .ok r →
      r.action = req.action ∧ r.target = req.target := by
  simp only [execute_list_processes]
  repeat' split
  all_goals intro r hr
  all_goals cases hr
  all_goals exact ⟨rfl, rfl⟩

theorem restart_service_fields (env : ExecEnv) (req : CommandRequest) :
    ∀ r, (execute_restart_service env req).1 = .ok r →
      r.action = req.action ∧ r.target = req.target := by
  simp only [execute_restart_service]
  repeat' split
  all_goals intro r hr
  all_goals cases hr
  all_goals exact ⟨rfl, rfl⟩

theorem shell_query_fields (env : ExecEnv) (ex : SafeExecutor) (req : CommandRequest) :
    ∀ r, (execute_shell_query env ex req).1 = .ok r →
      r.action = req.action ∧ r.target = req.target := by
  simp only [execute_shell_query]
  repeat' split
  all_goals intro r hr
  all_goals cases hr
  all_goals exact ⟨rfl, rfl⟩

theorem dispatch_ok_fields (env : ExecEnv) (ex : SafeExecutor) (req : CommandRequest) :
    ∀ r, (dispatchAction env ex req).1 = .ok r →
      r.action = req.action ∧ r.target = req.target := by
  obtain ⟨a, tgt, ps, rs⟩ := req
  cases a
  · exact start_app_fields env ⟨.start_app, tgt, ps, rs⟩
  · exact kill_process_fields env ⟨.kill_process, tgt, ps, rs⟩
  · exact list_processes_fields env ex ⟨.list_processes, tgt, ps, rs⟩
  · exact restart_service_fields env ⟨.restart_service, tgt, ps, rs⟩
  · exact shell_query_fields env ex ⟨.shell_query, tgt, ps, rs⟩

/-- C10: `execute` is total — it always returns a `CommandResponse` whose
`action` and `target` equal the request's, and when the dispatched action
branch raises (a `.error` escaping the dispatch), the catch-all converts it
into a failure response carrying the exception's message. -/
theorem execute_total_preserves (env : ExecEnv) (ex : SafeExecutor) (req : CommandRequest) :
    (execute env ex req).1.action = req.action ∧
    (execute env ex req).1.target = req.target ∧
    (∀ m effs, ex.context.dry_run = false →
      dispatchAction env ex req = (.error m, effs) →
      execute env ex req =
        ({ success := false, action := req.action, target := req.target,
           error := some m }, effs)) := by
  by_cases hd : ex.context.dry_run = true
  · refine ⟨by simp [execute, hd], by simp [execute, hd], ?_⟩
    intro m effs hdry
    rw [hd] at hdry
    cases hdry
  · have hd' : ex.context.dry_run = false := by simpa using hd
    rcases hdis : dispatchAction env ex req with ⟨fst, effs0⟩
    cases fst with
    | ok r =>
      have hf := dispatch_ok_fields env ex req r (by rw [hdis])
      refine ⟨?_, ?_, ?_⟩
      · simp [execute, hd', hdis, hf.1]
      · simp [execute, hd', hdis, hf.2]
      · intro m effs hdry he
        simp at he
    | error m0 =>
      refine ⟨?_, ?_, ?_⟩
      · simp [execute, hd', hdis]
      · simp [execute, hd', hdis]
      · intro m effs hdry he
        injection he with he1 he2
        injection he1 with he1
        subst he1
        subst he2
        simp [execute, hd', hdis]

/-- Oracle whose `pgrep` call raises a non-timeout exception. -/
def envExcW : ExecEnv := { envW with pgrepRun := .exc "boom" }

theorem execute_total_preserves_witness :
    exLiveW.context.dry_run = false ∧
    execute envExcW exLiveW { action := .kill_process, target := "firefox" } =
      ({ success := false, action := .kill_process, target := "firefox",
         error := some "boom" },
       [Effect.ranCommand ["pgrep", "-f", "firefox"]]) := by
  refine ⟨rfl, ?_⟩
  have h := (execute_total_preserves envExcW exLiveW
    { action := .kill_process, target := "firefox" }).2.2 "boom"
    [Effect.ranCommand ["pgrep", "-f", "firefox"]] rfl (by decide)
  simpa using h
